import Mathlib

/-!
Verification of the swearjar conversational-orchestration core.

The definitions below are a shallow embedding of the TypeScript source:
`lib/tools/context.ts`, `lib/tools/transactions.ts`, `lib/agents/insight.ts`,
`lib/agents/onboarding.ts`, `lib/agents/orchestrator.ts` and the shared tool
index.  JavaScript numbers are modelled as `Rat`, JSON values as `Val`,
database rows for a single user as `UserDb` (every query in the source is
scoped by `user_id`, so per-user slices are independent).  The language model
is an external oracle: an agent turn is parametrised by the script of
tool-call rounds the model produced, terminated by its final text response.
-/

namespace Swearjar

/-- A JSON/JavaScript value as it flows through the tool layer.  The first constructor
models JavaScript `undefined` (absent property). -/
inductive Val where
  | undefined : Val
  | null : Val
  | bool : Bool → Val
  | num : Rat → Val
  | str : String → Val
  | arr : List Val → Val
  | obj : List (String × Val) → Val

/-- JavaScript truthiness test (falsy values: `undefined`, `null`, `false`,
`0`, `""`).  `NaN` is not modelled. -/
def jsFalsy : Val → Bool
  | .undefined => true
  | .null => true
  | .bool b => !b
  | .num q => q == 0
  | .str s => s == ""
  | .arr _ => false
  | .obj _ => false

/-- JavaScript `v || d`. -/
def jsOr (v d : Val) : Val := if jsFalsy v then d else v

/-- Property read `v[k]`; `undefined` when absent or when `v` is not an
object (primitive property access; the source never reads a property off
`null`/`undefined` on the paths modelled here). -/
def getProp : Val → String → Val
  | .obj fs, k =>
    match fs.find? (fun p => p.1 == k) with
    | some p => p.2
    | none => .undefined
  | _, _ => .undefined

/-- JavaScript `k in v` for a (non-null) object `v`. -/
def hasProp : Val → String → Bool
  | .obj fs, k => fs.any (fun p => p.1 == k)
  | _, _ => false

/-- `Array.isArray`. -/
def Val.isArr : Val → Bool
  | .arr _ => true
  | _ => false

/-- JavaScript strict equality on the values compared in the source
(`x.item !== itemToRemove`): primitives compare by value; two object or
array operands are distinct references here because tool inputs are freshly
parsed, so they compare unequal. -/
def jsStrictEq : Val → Val → Bool
  | .undefined, .undefined => true
  | .null, .null => true
  | .bool a, .bool b => a == b
  | .num a, .num b => a == b
  | .str a, .str b => a == b
  | _, _ => false

/-! ### Data model (`lib/types/context.ts`, transaction rows) -/

/-- The seven fields of `UserContext`.  Each holds a raw JSON value, matching
the loosely-typed database columns the source reads and writes
(`household_members: unknown`, ...). -/
structure UserContext where
  household_members : Val
  deliberate_tradeoffs : Val
  non_negotiables : Val
  watch_patterns : Val
  seasonal_patterns : Val
  spending_targets : Val
  context_narrative : Val

/-- Default `spending_targets` (`{ discretionary_pct: 35, specific: {} }`). -/
def defaultSpendingTargets : Val :=
  .obj [("discretionary_pct", .num 35), ("specific", .obj [])]

/-- `DEFAULT_USER_CONTEXT` from `lib/types/context.ts`: empty lists, 35%
discretionary target with no per-category targets, empty narrative. -/
def DEFAULT_USER_CONTEXT : UserContext :=
  { household_members := .arr []
    deliberate_tradeoffs := .arr []
    non_negotiables := .arr []
    watch_patterns := .arr []
    seasonal_patterns := .arr []
    spending_targets := defaultSpendingTargets
    context_narrative := .str "" }

/-- The field names of `UserContext`, for the dynamic `params.field as
keyof UserContext` access in `updateUserContext`. -/
inductive CtxField where
  | household_members
  | deliberate_tradeoffs
  | non_negotiables
  | watch_patterns
  | seasonal_patterns
  | spending_targets
  | context_narrative
deriving DecidableEq

def CtxField.name : CtxField → String
  | .household_members => "household_members"
  | .deliberate_tradeoffs => "deliberate_tradeoffs"
  | .non_negotiables => "non_negotiables"
  | .watch_patterns => "watch_patterns"
  | .seasonal_patterns => "seasonal_patterns"
  | .spending_targets => "spending_targets"
  | .context_narrative => "context_narrative"

def CtxField.ofString (s : String) : Option CtxField :=
  if s = "household_members" then some .household_members
  else if s = "deliberate_tradeoffs" then some .deliberate_tradeoffs
  else if s = "non_negotiables" then some .non_negotiables
  else if s = "watch_patterns" then some .watch_patterns
  else if s = "seasonal_patterns" then some .seasonal_patterns
  else if s = "spending_targets" then some .spending_targets
  else if s = "context_narrative" then some .context_narrative
  else none

def UserContext.get (c : UserContext) : CtxField → Val
  | .household_members => c.household_members
  | .deliberate_tradeoffs => c.deliberate_tradeoffs
  | .non_negotiables => c.non_negotiables
  | .watch_patterns => c.watch_patterns
  | .seasonal_patterns => c.seasonal_patterns
  | .spending_targets => c.spending_targets
  | .context_narrative => c.context_narrative

def UserContext.set (c : UserContext) : CtxField → Val → UserContext
  | .household_members, v => { c with household_members := v }
  | .deliberate_tradeoffs, v => { c with deliberate_tradeoffs := v }
  | .non_negotiables, v => { c with non_negotiables := v }
  | .watch_patterns, v => { c with watch_patterns := v }
  | .seasonal_patterns, v => { c with seasonal_patterns := v }
  | .spending_targets, v => { c with spending_targets := v }
  | .context_narrative, v => { c with context_narrative := v }

/-- A `UserContext` viewed as the plain JavaScript object it is at runtime
(used where the source stores or casts it as an untyped object). -/
def UserContext.toObj (c : UserContext) : List (String × Val) :=
  [("household_members", c.household_members),
   ("deliberate_tradeoffs", c.deliberate_tradeoffs),
   ("non_negotiables", c.non_negotiables),
   ("watch_patterns", c.watch_patterns),
   ("seasonal_patterns", c.seasonal_patterns),
   ("spending_targets", c.spending_targets),
   ("context_narrative", c.context_narrative)]

/-- Object property lookup returning `undefined` for a missing key. -/
def lookupKey (m : List (String × Val)) (k : String) : Val :=
  match m.find? (fun p => p.1 == k) with
  | some p => p.2
  | none => .undefined

/-- The cast `state.gatheredContext as UserContext`: reading the seven
fields off a plain object; a missing field is `undefined`.  Extra
properties are invisible to every consumer (only the seven fields are ever
read or persisted). -/
def UserContext.ofObj (m : List (String × Val)) : UserContext :=
  { household_members := lookupKey m "household_members"
    deliberate_tradeoffs := lookupKey m "deliberate_tradeoffs"
    non_negotiables := lookupKey m "non_negotiables"
    watch_patterns := lookupKey m "watch_patterns"
    seasonal_patterns := lookupKey m "seasonal_patterns"
    spending_targets := lookupKey m "spending_targets"
    context_narrative := lookupKey m "context_narrative" }

/-- Row of the `user_context` table (its seven JSON columns plus the
`onboarding_complete` marker). -/
structure UserContextRow where
  context : UserContext
  onboarding_complete : Bool

/-- Row of the `onboarding_state` table. -/
structure OnboardingStateRow where
  phase : String
  gathered_context : List (String × Val)
  questions_asked : List String

/-- A transaction row as read by the query tools.  Dates are abstract
ordered day numbers (the source compares ISO `YYYY-MM-DD` strings /
date columns, which is the same total order). -/
structure Transaction where
  date : Nat
  amount : Rat
  category : Option String
  classification : Option String
  merchant_normalised : Option String
deriving DecidableEq

/-- A stored insight (`insights` table): content plus the derived priority. -/
structure Insight where
  content : String
  priority : String
deriving DecidableEq

/-- The per-user slice of the database.  Every query in the source filters
by `user_id`, so distinct users' rows never interact.  Conversation/message
logs and merchant mappings are not part of any claim and are not carried
here. -/
structure UserDb where
  user_context : Option UserContextRow
  onboarding_state : Option OnboardingStateRow
  transactions : List Transaction
  insights : List Insight

/-! ### Context store (`lib/tools/context.ts`) -/

/-- `getUserContext`: default when the row is absent (the source also takes
this branch on a read error, which the `Option` collapses); otherwise each
column with its `|| default` fallback. -/
def getUserContext (db : UserDb) : UserContext :=
  match db.user_context with
  | none => DEFAULT_USER_CONTEXT
  | some row =>
    { household_members := jsOr row.context.household_members (.arr [])
      deliberate_tradeoffs := jsOr row.context.deliberate_tradeoffs (.arr [])
      non_negotiables := jsOr row.context.non_negotiables (.arr [])
      watch_patterns := jsOr row.context.watch_patterns (.arr [])
      seasonal_patterns := jsOr row.context.seasonal_patterns (.arr [])
      spending_targets := jsOr row.context.spending_targets defaultSpendingTargets
      context_narrative := jsOr row.context.context_narrative (.str "") }

/-- `saveUserContext`: full upsert of the seven columns, unconditionally
setting `onboarding_complete: true`. -/
def saveUserContext (db : UserDb) (ctx : UserContext) : UserDb :=
  { db with user_context := some { context := ctx, onboarding_complete := true } }

/-- `ToIntegerOrInfinity` as applied to `Array.prototype.splice`'s start
argument: truncation toward zero. -/
def jsTrunc (q : Rat) : Int := if q < 0 then ⌈q⌉ else ⌊q⌋

/-- `arr.splice(start, 1)`: a negative start counts from the end (clamped
at 0), a start beyond the end removes nothing. -/
def jsSplice1 (xs : List Val) (q : Rat) : List Val :=
  let n := jsTrunc q
  let start : Nat := if n < 0 then ((xs.length : Int) + n).toNat else min n.toNat xs.length
  xs.take start ++ xs.drop (start + 1)

structure UpdateContextParams where
  field : String
  action : String
  value : Val

/-- The pure mutation step of `updateUserContext` (between the read and the
write-back).  An unknown `field` with `action: "set"` creates an extra
property on the copied object in the source, but `saveUserContext` writes
only the seven known columns, so it is dropped; the read-back result is
identical to leaving the context unchanged, which is how it is modelled. -/
def applyContextUpdate (ctx : UserContext) (p : UpdateContextParams) : UserContext :=
  match CtxField.ofString p.field with
  | none => ctx
  | some f =>
    if p.action = "set" then
      ctx.set f p.value
    else if p.action = "append" then
      match ctx.get f with
      | .arr xs => ctx.set f (.arr (xs ++ [p.value]))
      | _ => ctx
    else if p.action = "remove" then
      match ctx.get f with
      | .arr xs =>
        match p.value with
        | .num q => ctx.set f (.arr (jsSplice1 xs q))
        | .obj fields =>
          if hasProp (.obj fields) "item" then
            let itemToRemove := getProp (.obj fields) "item"
            ctx.set f (.arr (xs.filter (fun x => !(jsStrictEq (getProp x "item") itemToRemove))))
          else ctx
        | _ => ctx
      | _ => ctx
    else ctx

/-- `updateUserContext`: read current, apply, write back through
`saveUserContext`. -/
def updateUserContext (db : UserDb) (p : UpdateContextParams) : UserDb :=
  saveUserContext db (applyContextUpdate (getUserContext db) p)

/-- `getOnboardingState`: returns the stored row, or creates and inserts the
initial `intro` state when none exists (also the read-error branch). -/
def getOnboardingState (db : UserDb) : OnboardingStateRow × UserDb :=
  match db.onboarding_state with
  | some row => (row, db)
  | none =>
    let s : OnboardingStateRow :=
      { phase := "intro", gathered_context := [], questions_asked := [] }
    (s, { db with onboarding_state := some s })

/-- `saveOnboardingState`: upsert keyed by user. -/
def saveOnboardingState (db : UserDb) (s : OnboardingStateRow) : UserDb :=
  { db with onboarding_state := some s }

/-! ### Transaction query service (`lib/tools/transactions.ts`) -/

/-- `Math.round` (half toward plus infinity), as `Math.round(x) = ⌊x + 1/2⌋`. -/
def jsRound (q : Rat) : Int := ⌊q + 1 / 2⌋

/-- `Math.round(x * 100) / 100`. -/
def round2 (q : Rat) : Rat := (jsRound (q * 100) : Rat) / 100

/-- `t.category || "Uncategorized"` and friends: `null` and the empty
string both fall back (JavaScript `||`). -/
def jsOrStr (o : Option String) (d : String) : String :=
  match o with
  | some s => if s = "" then d else s
  | none => d

inductive GroupBy where
  | category
  | classification
  | merchant
deriving DecidableEq

/-- The grouping key of a row in `getSpendingSummary`. -/
def groupKey (g : GroupBy) (t : Transaction) : String :=
  match g with
  | .category => jsOrStr t.category "Uncategorized"
  | .classification => jsOrStr t.classification "Unknown"
  | .merchant => jsOrStr t.merchant_normalised "Unknown"

/-- One step of the `summary[key]` accumulation: bump total and count for an
existing key, else append a fresh entry (object keys keep insertion order). -/
def addToSummary (m : List (String × Rat × Nat)) (k : String) (amt : Rat) :
    List (String × Rat × Nat) :=
  if m.any (fun e => e.1 == k) then
    m.map (fun e => if e.1 == k then (e.1, e.2.1 + amt, e.2.2 + 1) else e)
  else m ++ [(k, amt, 1)]

structure BreakdownEntry where
  name : String
  total : Rat
  count : Nat
  percentage : Rat
deriving DecidableEq

structure SpendingSummary where
  total : Rat
  breakdown : List BreakdownEntry
deriving DecidableEq

/-- Descending-by-total comparator used on the breakdown
(`(a, b) => b.total - a.total`). -/
def breakdownGE (a b : BreakdownEntry) : Prop := b.total ≤ a.total

instance : DecidableRel breakdownGE := fun a b => inferInstanceAs (Decidable (b.total ≤ a.total))

instance : IsTotal BreakdownEntry breakdownGE := ⟨fun a b => le_total b.total a.total⟩

instance : IsTrans BreakdownEntry breakdownGE :=
  ⟨fun _ _ _ h h' => le_trans h' h⟩

/-- The rows `getSpendingSummary` queries: the user's transactions in the
date range with `amount > 0` (income excluded). -/
def spendingRows (db : UserDb) (startDate endDate : Nat) : List Transaction :=
  db.transactions.filter
    (fun t => decide (startDate ≤ t.date) && decide (t.date ≤ endDate) && decide (0 < t.amount))

/-- `getSpendingSummary`: grouped totals over positive-amount rows in the
range, rounded to cents, each with its share of the grand total to one
decimal place, sorted descending by (rounded) total.  `Array.prototype.sort`
is stable, modelled by insertion sort. -/
def getSpendingSummary (db : UserDb) (startDate endDate : Nat) (g : GroupBy) :
    SpendingSummary :=
  let rows := spendingRows db startDate endDate
  let summary := rows.foldl (fun m t => addToSummary m (groupKey g t) t.amount) []
  let grandTotal := rows.foldl (fun acc t => acc + t.amount) 0
  let breakdown := summary.map (fun e =>
    { name := e.1
      total := round2 e.2.1
      count := e.2.2
      percentage := if 0 < grandTotal then (jsRound (e.2.1 / grandTotal * 1000) : Rat) / 10 else 0
      : BreakdownEntry })
  { total := round2 grandTotal
    breakdown := breakdown.insertionSort breakdownGE }

/-- One step of the `dailySpending[t.date]` accumulation. -/
def addToDaily (m : List (Nat × Rat)) (d : Nat) (amt : Rat) : List (Nat × Rat) :=
  if m.any (fun e => e.1 == d) then
    m.map (fun e => if e.1 == d then (e.1, e.2 + amt) else e)
  else m ++ [(d, amt)]

/-- One step of the `merchantTotals[name]` accumulation. -/
def addToMerchants (m : List (String × Rat)) (k : String) (amt : Rat) :
    List (String × Rat) :=
  if m.any (fun e => e.1 == k) then
    m.map (fun e => if e.1 == k then (e.1, e.2 + amt) else e)
  else m ++ [(k, amt)]

structure RecentActivity where
  period_days : Nat
  total_spending : Rat
  essential : Rat
  discretionary : Rat
  discretionary_pct : Rat
  avg_daily : Rat
  transaction_count : Nat
  top_merchants : List (String × Rat)
deriving DecidableEq

/-- Descending comparator on merchant totals (`(a, b) => b[1] - a[1]`). -/
def merchantGE (a b : String × Rat) : Prop := b.2 ≤ a.2

instance : DecidableRel merchantGE := fun a b => inferInstanceAs (Decidable (b.2 ≤ a.2))

/-- The rows `getRecentActivity` queries: dates within the last `days` days
of `today` (`startDate = today - days`, clamped at day 0). -/
def recentRows (db : UserDb) (today days : Nat) : List Transaction :=
  db.transactions.filter (fun t => decide (today - days ≤ t.date))

/-- `getRecentActivity`: totals over positive-amount rows in the window,
with `avg_daily` dividing the total by the number of days that actually
have spending (`daysWithData`), not by the window length. -/
def getRecentActivity (db : UserDb) (today : Nat) (days : Nat) : RecentActivity :=
  let ts := recentRows db today days
  let dailySpending := ts.foldl
    (fun m t => if 0 < t.amount then addToDaily m t.date t.amount else m) []
  let totalSpending := ts.foldl
    (fun acc t => if 0 < t.amount then acc + t.amount else acc) 0
  let essentialTotal := ts.foldl
    (fun acc t =>
      if 0 < t.amount ∧ t.classification = some "Essential" then acc + t.amount else acc) 0
  let discretionaryTotal := ts.foldl
    (fun acc t =>
      if 0 < t.amount ∧ t.classification = some "Discretionary" then acc + t.amount else acc) 0
  let merchantTotals := ts.foldl
    (fun m t =>
      if 0 < t.amount then
        match t.merchant_normalised with
        | some mn => if mn = "" then m else addToMerchants m mn t.amount
        | none => m
      else m) []
  let topMerchants := ((merchantTotals.insertionSort merchantGE).take 10).map
    (fun e => (e.1, round2 e.2))
  let daysWithData := dailySpending.length
  let avgDaily := if 0 < daysWithData then totalSpending / (daysWithData : Rat) else 0
  { period_days := days
    total_spending := round2 totalSpending
    essential := round2 essentialTotal
    discretionary := round2 discretionaryTotal
    discretionary_pct :=
      if 0 < totalSpending then (jsRound (discretionaryTotal / totalSpending * 1000) : Rat) / 10
      else 0
    avg_daily := round2 avgDaily
    transaction_count := ts.length
    top_merchants := topMerchants }

/-! ### Insight agent (`lib/agents/insight.ts`) -/

/-- `String.prototype.includes`: substring test. -/
def jsIncludes (s sub : String) : Bool :=
  (List.range (s.toList.length + 1)).any (fun i => sub.toList.isPrefixOf (s.toList.drop i))

/-- ASCII lowercasing of one character (all strings the router and the
priority classifier compare are ASCII). -/
def charToLower (c : Char) : Char :=
  if 65 ≤ c.toNat ∧ c.toNat ≤ 90 then Char.ofNat (c.toNat + 32) else c

/-- `String.prototype.toLowerCase`. -/
def jsToLower (s : String) : String := String.mk (s.toList.map charToLower)

/-- Keywords mapped to the `alert` bucket in `determineInsightPriority`. -/
def alertKeywords : List String := ["over budget", "exceeded", "alert", "concerning"]

/-- Keywords mapped to the `warning` bucket. -/
def warningKeywords : List String := ["on pace to", "heading towards", "warning", "watch out"]

/-- Keywords mapped to the `watch` bucket. -/
def watchKeywords : List String := ["pattern", "noticed"]

/-- Keywords mapped to the `affirmation` bucket. -/
def affirmationKeywords : List String := ["on track", "looking good", "well done", "all good"]

/-- `determineInsightPriority`: ordered keyword matching over the lowercased
text, first matching bucket wins, `observation` when nothing matches. -/
def determineInsightPriority (text : String) : String :=
  let lower := jsToLower text
  if alertKeywords.any (fun k => jsIncludes lower k) then "alert"
  else if warningKeywords.any (fun k => jsIncludes lower k) then "warning"
  else if watchKeywords.any (fun k => jsIncludes lower k) then "watch"
  else if affirmationKeywords.any (fun k => jsIncludes lower k) then "affirmation"
  else "observation"

/-- The five priority values. -/
def insightPriorities : List String :=
  ["alert", "warning", "watch", "observation", "affirmation"]

/-- `runInsightAgent`.  The single model call is the oracle argument: on a
provider error the rejection propagates to the caller before `storeInsight`
runs, so the store is untouched; on success the returned content's text
block (`textContent?.text || ""`) is classified and stored as exactly one
insight row.  The pre-fetched summary bundle and prompt feed only the
opaque model call and the stored `data_snapshot`, neither of which any
claim reads, so they are not carried on the stored record here. -/
def runInsightAgent (db : UserDb) (modelCall : Except String (Option String)) :
    Except String String × UserDb :=
  match modelCall with
  | .error e => (.error e, db)
  | .ok textBlock =>
    let insightText := textBlock.getD ""
    let priority := determineInsightPriority insightText
    (.ok insightText,
     { db with insights := db.insights ++ [{ content := insightText, priority := priority }] })

/-! ### Onboarding agent (`lib/agents/onboarding.ts`) -/

/-- Input of the `transition_phase` tool, as cast by the handler. -/
structure TransitionInput where
  next_phase : String
  gathered : List (String × Val)
  question_asked : Option String

/-- The `enum` the `transition_phase` schema declares for `next_phase`
(every phase after `intro`). -/
def transitionPhaseEnum : List String :=
  ["household", "groceries", "transport", "subscriptions", "bnpl",
   "lifestyle", "synthesis", "complete"]

/-- The nine onboarding phases (`OnboardingPhase`). -/
def onboardingPhases : List String := "intro" :: transitionPhaseEnum

/-- `Object.assign(target, source)`: shallow merge, new keys overwrite. -/
def objAssign (target source : List (String × Val)) : List (String × Val) :=
  source.foldl
    (fun acc kv =>
      if acc.any (fun p => p.1 == kv.1) then
        acc.map (fun p => if p.1 == kv.1 then (p.1, kv.2) else p)
      else acc ++ [kv])
    target

/-- The `transition_phase` handler's state update: the phase becomes the
requested `next_phase` (no validation), the gathered context is shallow
merged, and a truthy `question_asked` is pushed. -/
def applyTransitionPhase (st : OnboardingStateRow) (inp : TransitionInput) :
    OnboardingStateRow :=
  { phase := inp.next_phase
    gathered_context := objAssign st.gathered_context inp.gathered
    questions_asked := st.questions_asked ++
      (match inp.question_asked with
       | some q => if q = "" then [] else [q]
       | none => []) }

/-- One tool call requested by the model during an onboarding turn. -/
inductive OnbToolCall where
  | transitionPhase : TransitionInput → OnbToolCall
  | completeOnboarding : UserContext → OnbToolCall
  | other : String → Val → OnbToolCall

/-- The model side of one onboarding turn: the tool-use rounds it requested
(the loop re-invokes it after each round) and the final text response that
ends the loop. -/
structure OnbScript where
  rounds : List (List OnbToolCall)
  finalText : String

structure OnboardingResult where
  response : String
  complete : Bool
  context : Option UserContext

/-- The in-memory loop state of `runOnboardingAgent`. -/
structure OnbLoopState where
  db : UserDb
  phase : String
  gathered : List (String × Val)
  questions : List String
  finalContext : Option UserContext

/-- `executeTool` for the non-onboarding tools: `update_user_context` is the
only one whose write lands in a table a claim reads; the transaction tools
are pure reads, and `add_merchant_mapping` upserts into `merchant_mappings`,
which nothing modelled here consumes. -/
def execOtherTool (db : UserDb) (name : String) (input : Val) : UserDb :=
  if name = "update_user_context" then
    updateUserContext db
      { field := match getProp input "field" with | .str s => s | _ => ""
        action := match getProp input "action" with | .str s => s | _ => ""
        value := getProp input "value" }
  else db

/-- Executing one tool call inside the onboarding loop
(`runOnboardingAgent`'s `tool_use` handler): `transition_phase` and
`complete_onboarding` mutate and persist the onboarding state; everything
else goes through `executeTool`. -/
def execOnbToolCall (st : OnbLoopState) (c : OnbToolCall) : OnbLoopState :=
  match c with
  | .transitionPhase inp =>
    let s := applyTransitionPhase
      { phase := st.phase, gathered_context := st.gathered,
        questions_asked := st.questions } inp
    { st with
        db := saveOnboardingState st.db s
        phase := s.phase
        gathered := s.gathered_context
        questions := s.questions_asked }
  | .completeOnboarding fc =>
    { st with
        db := saveOnboardingState st.db
          { phase := "complete", gathered_context := fc.toObj,
            questions_asked := st.questions }
        phase := "complete"
        finalContext := some fc }
  | .other name input => { st with db := execOtherTool st.db name input }

/-- The `while (stop_reason === "tool_use")` loop over the scripted rounds. -/
def runOnbRounds (st : OnbLoopState) : List (List OnbToolCall) → OnbLoopState
  | [] => st
  | round :: rest => runOnbRounds (round.foldl execOnbToolCall st) rest

/-- `runOnboardingAgent`: load (or create) the onboarding state, run the
tool loop against the scripted model turns, and report completion.
`context` is populated exactly when the phase ended at `complete`, from the
`complete_onboarding` payload when one arrived, else from the accumulated
`gathered_context` cast to a `UserContext`.  Conversation creation and the
message log are not modelled (no claim reads them). -/
def runOnboardingAgent (db : UserDb) (script : OnbScript) :
    OnboardingResult × UserDb :=
  let (row, db1) := getOnboardingState db
  let st : OnbLoopState :=
    { db := db1, phase := row.phase, gathered := row.gathered_context,
      questions := row.questions_asked, finalContext := none }
  let stF := runOnbRounds st script.rounds
  let isComplete := stF.phase = "complete"
  ({ response := script.finalText
     complete := isComplete
     context :=
       if isComplete then
         some (stF.finalContext.getD (UserContext.ofObj stF.gathered))
       else none },
   stF.db)

/-! ### Intent router (`lib/agents/orchestrator.ts`) -/

inductive Route where
  | onboarding
  | chat
  | insight
deriving DecidableEq

/-- The fixed keyword list of `classifyIntent`.  `"how's my spending"`
contains an apostrophe, built here from its character code. -/
def insightKeywords : List String :=
  ["summary", "how am i doing", "update", "insight", "overview", "status",
   "how" ++ String.singleton (Char.ofNat 39) ++ "s my spending",
   "how is my spending", "check in", "checkin"]

/-- `classifyIntent`: case-insensitive substring match against the keyword
list; any hit routes to the insight agent, else chat. -/
def classifyIntent (message : String) : Route :=
  let lowerMessage := jsToLower message
  if insightKeywords.any (fun k => jsIncludes lowerMessage k) then .insight else .chat

/-- `userContext?.onboarding_complete === true` on the `user_context` row. -/
def isOnboarded (db : UserDb) : Bool :=
  match db.user_context with
  | some r => r.onboarding_complete
  | none => false

/-- `onboardingState && onboardingState.phase !== "complete"`: a missing
row is falsy. -/
def hasActiveOnboarding (db : UserDb) : Bool :=
  match db.onboarding_state with
  | some s => s.phase ≠ "complete"
  | none => false

/-- The routing decision of `orchestrate`, a pure function of the persisted
state and the message: not-onboarded or active onboarding forces the
onboarding agent; otherwise the keyword classifier picks insight or chat. -/
def routeDecision (db : UserDb) (msg : String) : Route :=
  if !isOnboarded db || hasActiveOnboarding db then .onboarding
  else classifyIntent msg

structure OrchestrationResult where
  route : Route
  response : String
  contextUpdated : Option Bool

/-- `orchestrate`: dispatch per `routeDecision`.  On the onboarding path,
a turn that reports complete with a context gets that context persisted via
`saveUserContext` and `contextUpdated: true`; the insight path runs
`runInsightAgent` (whose model-call failure propagates as the rejection of
the whole request); the chat path's model call is the `chatCall` oracle
(its conversation log is not modelled). -/
def orchestrate (db : UserDb) (msg : String) (script : OnbScript)
    (insightCall : Except String (Option String)) (chatCall : Except String String) :
    Except String (OrchestrationResult × UserDb) :=
  if !isOnboarded db || hasActiveOnboarding db then
    let (result, db1) := runOnboardingAgent db script
    if result.complete then
      match result.context with
      | some ctx =>
        .ok ({ route := .onboarding, response := result.response,
               contextUpdated := some true },
             saveUserContext db1 ctx)
      | none =>
        .ok ({ route := .onboarding, response := result.response,
               contextUpdated := none }, db1)
    else
      .ok ({ route := .onboarding, response := result.response,
             contextUpdated := none }, db1)
  else
    match classifyIntent msg with
    | .insight =>
      match runInsightAgent db insightCall with
      | (.ok text, db1) =>
        .ok ({ route := .insight, response := text, contextUpdated := none }, db1)
      | (.error e, _) => .error e
    | _ =>
      match chatCall with
      | .ok text =>
        .ok ({ route := .chat, response := text, contextUpdated := none }, db)
      | .error e => .error e

/-- A user with no rows at all: not onboarded, no onboarding session. -/
def emptyDb : UserDb :=
  { user_context := none, onboarding_state := none, transactions := [], insights := [] }

/-- A user whose onboarding session is persisted at `synthesis`. -/
def dbAtSynthesis : UserDb :=
  { user_context := none,
    onboarding_state := some { phase := "synthesis", gathered_context := [], questions_asked := [] },
    transactions := [], insights := [] }

/-- A user whose onboarding session is persisted at `complete` (but who is
not yet marked onboarded, so the router still sends them to the onboarding
agent). -/
def dbAtComplete : UserDb :=
  { user_context := none,
    onboarding_state := some { phase := "complete", gathered_context := [], questions_asked := [] },
    transactions := [], insights := [] }

/-- A model turn requesting a single backward transition to `household`. -/
def backToHouseholdScript : OnbScript :=
  { rounds := [[.transitionPhase { next_phase := "household", gathered := [], question_asked := none }]],
    finalText := "ok" }

/-- A model turn that immediately finalizes onboarding with the default
context. -/
def finalizeScript : OnbScript :=
  { rounds := [[.completeOnboarding DEFAULT_USER_CONTEXT]], finalText := "done" }

/-- The spec's worked example: two grocery expenses and one income row, all
inside the queried range. -/
def exampleSpendingDb : UserDb :=
  { user_context := none, onboarding_state := none,
    transactions :=
      [{ date := 5, amount := 50, category := some "Groceries",
         classification := none, merchant_normalised := none },
       { date := 6, amount := -1000, category := none,
         classification := none, merchant_normalised := none },
       { date := 7, amount := 30, category := some "Groceries",
         classification := none, merchant_normalised := none }],
    insights := [] }

/-- Rows on exactly two days (25 and 27) totalling 100. -/
def recentExampleDb : UserDb :=
  { user_context := none, onboarding_state := none,
    transactions :=
      [{ date := 25, amount := 60, category := some "Groceries",
         classification := some "Essential", merchant_normalised := some "woolworths" },
       { date := 27, amount := 40, category := some "Fuel",
         classification := some "Essential", merchant_normalised := some "bp" }],
    insights := [] }

/-- A context whose `deliberate_tradeoffs` list holds items "A" and "B". -/
def tradeoffCtx : UserContext :=
  { DEFAULT_USER_CONTEXT with
    deliberate_tradeoffs := .arr [.obj [("item", .str "A")], .obj [("item", .str "B")]] }

/-- An onboarded user (completion marker set, no onboarding-state row). -/
def onboardedDb : UserDb :=
  { user_context := some { context := DEFAULT_USER_CONTEXT, onboarding_complete := true },
    onboarding_state := none, transactions := [], insights := [] }

/-- Like `emptyDb` but with one transaction row (the context tables are
still empty). -/
def emptyDbWithTx : UserDb :=
  { user_context := none, onboarding_state := none,
    transactions := [{ date := 1, amount := 5, category := none,
                       classification := none, merchant_normalised := none }],
    insights := [] }

/-! ### Helper lemmas -/

theorem jsOr_jsOr (v d : Val) : jsOr (jsOr v d) d = jsOr v d := by
  unfold jsOr
  by_cases h : jsFalsy v = true <;> simp [h]

theorem CtxField.ofString_name (f : CtxField) : CtxField.ofString f.name = some f := by
  cases f <;> rfl

theorem UserContext.get_set (c : UserContext) (f : CtxField) (v : Val) :
    (c.set f v).get f = v := by
  cases f <;> rfl

/-- Reading back a just-saved read: the `|| default` fallbacks in
`getUserContext` are stable, so save-then-read of the current context is
the identity (the spec's round-trip property, used for the no-op claim). -/
theorem getUserContext_save_self (db : UserDb) :
    getUserContext (saveUserContext db (getUserContext db)) = getUserContext db := by
  unfold getUserContext saveUserContext
  cases h : db.user_context with
  | none => rfl
  | some row => simp [jsOr_jsOr]

theorem jsSplice1_natCast (xs : List Val) (i : Nat) (h : i < xs.length) :
    jsSplice1 xs (i : Rat) = xs.take i ++ xs.drop (i + 1) := by
  unfold jsSplice1 jsTrunc
  have h0 : ¬((i : Rat) < 0) := not_lt.2 (by positivity)
  have h1 : ¬((i : Int) < 0) := not_lt.2 (by positivity)
  dsimp only
  rw [if_neg h0, Int.floor_natCast, if_neg h1, Int.toNat_natCast,
    Nat.min_eq_left (le_of_lt h)]

/-- C3: the merge policy of `updateUserContext` on a list-valued field:
remove-by-`item` filters out exactly the matching elements, a numeric
remove deletes the element at that index, append adds one element at the
end, and set replaces wholesale; finally the spec's concrete example
through the full read-modify-write path. -/
theorem updateUserContext_merge_policy (ctx : UserContext) (f : CtxField)
    (xs : List Val) (s : String) (v : Val) (i : Nat) :
    (ctx.get f = .arr xs →
      (applyContextUpdate ctx ⟨f.name, "remove", .obj [("item", .str s)]⟩).get f =
        .arr (xs.filter (fun x => !(jsStrictEq (getProp x "item") (.str s))))) ∧
    (ctx.get f = .arr xs → i < xs.length →
      (applyContextUpdate ctx ⟨f.name, "remove", .num (i : Rat)⟩).get f =
        .arr (xs.take i ++ xs.drop (i + 1))) ∧
    (ctx.get f = .arr xs →
      (applyContextUpdate ctx ⟨f.name, "append", v⟩).get f = .arr (xs ++ [v])) ∧
    ((applyContextUpdate ctx ⟨f.name, "set", v⟩).get f = v) ∧
    ((getUserContext (updateUserContext
        { user_context := some
            ⟨{ DEFAULT_USER_CONTEXT with
               deliberate_tradeoffs := .arr [.obj [("item", .str "A")], .obj [("item", .str "B")]] },
             true⟩,
          onboarding_state := none, transactions := [], insights := [] }
        ⟨"deliberate_tradeoffs", "remove", .obj [("item", .str "A")]⟩)).deliberate_tradeoffs
      = .arr [.obj [("item", .str "B")]]) := by
  refine ⟨?_, ?_, ?_, ?_, ?_⟩
  · intro h
    unfold applyContextUpdate
    rw [CtxField.ofString_name]
    dsimp only
    rw [if_neg (by decide : ¬("remove" : String) = "set"),
      if_neg (by decide : ¬("remove" : String) = "append"),
      if_pos (rfl : ("remove" : String) = "remove"), h]
    simp [hasProp, getProp, UserContext.get_set]
  · intro h hi
    unfold applyContextUpdate
    rw [CtxField.ofString_name]
    dsimp only
    rw [if_neg (by decide : ¬("remove" : String) = "set"),
      if_neg (by decide : ¬("remove" : String) = "append"),
      if_pos (rfl : ("remove" : String) = "remove"), h]
    rw [UserContext.get_set, jsSplice1_natCast xs i hi]
  · intro h
    unfold applyContextUpdate
    rw [CtxField.ofString_name]
    dsimp only
    rw [if_neg (by decide : ¬("append" : String) = "set"),
      if_pos (rfl : ("append" : String) = "append"), h]
    rw [UserContext.get_set]
  · unfold applyContextUpdate
    rw [CtxField.ofString_name]
    dsimp only
    rw [if_pos (rfl : ("set" : String) = "set")]
    rw [UserContext.get_set]
  · rfl

/-- Witness for the merge policy on `tradeoffCtx` (items "A", "B"):
remove-by-item drops "A", remove-by-index 0 drops the first element,
append adds one element at the end, set replaces wholesale. -/
theorem updateUserContext_merge_policy_witness :
    ((applyContextUpdate tradeoffCtx
        { field := "deliberate_tradeoffs", action := "remove",
          value := .obj [("item", .str "A")] }).get .deliberate_tradeoffs
      = .arr [.obj [("item", .str "B")]]) ∧
    ((applyContextUpdate tradeoffCtx
        { field := "deliberate_tradeoffs", action := "remove",
          value := .num ((0 : Nat) : Rat) }).get .deliberate_tradeoffs
      = .arr [.obj [("item", .str "B")]]) ∧
    ((applyContextUpdate tradeoffCtx
        { field := "deliberate_tradeoffs", action := "append",
          value := .obj [("item", .str "C")] }).get .deliberate_tradeoffs
      = .arr [.obj [("item", .str "A")], .obj [("item", .str "B")],
              .obj [("item", .str "C")]]) ∧
    ((applyContextUpdate tradeoffCtx
        { field := "context_narrative", action := "set",
          value := .str "fresh narrative" }).get .context_narrative
      = .str "fresh narrative") :=
  ⟨(updateUserContext_merge_policy tradeoffCtx .deliberate_tradeoffs
      [.obj [("item", .str "A")], .obj [("item", .str "B")]] "A"
      (.obj [("item", .str "C")]) 0).1 rfl,
   (updateUserContext_merge_policy tradeoffCtx .deliberate_tradeoffs
      [.obj [("item", .str "A")], .obj [("item", .str "B")]] "A"
      (.obj [("item", .str "C")]) 0).2.1 rfl (by decide),
   (updateUserContext_merge_policy tradeoffCtx .deliberate_tradeoffs
      [.obj [("item", .str "A")], .obj [("item", .str "B")]] "A"
      (.obj [("item", .str "C")]) 0).2.2.1 rfl,
   (updateUserContext_merge_policy tradeoffCtx .context_narrative
      [] "A" (.str "fresh narrative") 0).2.2.2.1⟩

/-- C8: `append` or `remove` on a field whose current value is not an
array leaves the context value unchanged: the value written back equals the
value read, so a subsequent `getUserContext` returns the same context.
(The write still happens and flips the onboarding marker — that side effect
is outside the `UserContext` value and is the subject of the
always-saves theorem.) -/
theorem updateUserContext_nonlist_noop (db : UserDb) (p : UpdateContextParams)
    (hact : p.action = "append" ∨ p.action = "remove")
    (hnl : ∀ f : CtxField, CtxField.ofString p.field = some f →
      ((getUserContext db).get f).isArr = false) :
    getUserContext (updateUserContext db p) = getUserContext db := by
  have happly : applyContextUpdate (getUserContext db) p = getUserContext db := by
    unfold applyContextUpdate
    cases hof : CtxField.ofString p.field with
    | none => rfl
    | some f =>
      have hf := hnl f hof
      rcases hact with ha | ha <;> rw [ha] <;> dsimp only
      · rw [if_neg (by decide : ¬("append" : String) = "set"),
          if_pos (rfl : ("append" : String) = "append")]
        cases hg : (getUserContext db).get f with
        | arr xs => rw [hg] at hf; simp [Val.isArr] at hf
        | _ => rfl
      · rw [if_neg (by decide : ¬("remove" : String) = "set"),
          if_neg (by decide : ¬("remove" : String) = "append"),
          if_pos (rfl : ("remove" : String) = "remove")]
        cases hg : (getUserContext db).get f with
        | arr xs => rw [hg] at hf; simp [Val.isArr] at hf
        | _ => rfl
  unfold updateUserContext
  rw [happly]
  exact getUserContext_save_self db

/-- Witness: `append` on `context_narrative` (a string field) for a user
with no stored context leaves the read-back context unchanged. -/
theorem updateUserContext_nonlist_noop_witness :
    getUserContext (updateUserContext
      { user_context := none, onboarding_state := none, transactions := [], insights := [] }
      { field := "context_narrative", action := "append", value := .str "x" }) =
    getUserContext
      { user_context := none, onboarding_state := none, transactions := [], insights := [] } :=
  updateUserContext_nonlist_noop _ _ (Or.inl rfl)
    (fun f h => by
      have : f = CtxField.context_narrative := by
        have h' : (some CtxField.context_narrative : Option CtxField) = some f := by
          rw [← h]; rfl
        exact (Option.some_inj.mp h').symm
      rw [this]; rfl)

/-- C9: `getUserContext` never fails visibly — with no stored record it
returns `DEFAULT_USER_CONTEXT`, and its result depends only on the stored
`user_context` record, so two reads with no intervening write are
identical. -/
theorem getUserContext_default_deterministic (db : UserDb)
    (h : db.user_context = none) :
    getUserContext db = DEFAULT_USER_CONTEXT ∧
    (∀ db' : UserDb, db'.user_context = db.user_context →
      getUserContext db' = getUserContext db) := by
  constructor
  · unfold getUserContext
    rw [h]
  · intro db' h'
    unfold getUserContext
    rw [h']

/-- Witness for the default-context theorem on an empty store. -/
theorem getUserContext_default_deterministic_witness :
    getUserContext emptyDb = DEFAULT_USER_CONTEXT ∧
    getUserContext emptyDbWithTx = getUserContext emptyDb :=
  ⟨(getUserContext_default_deterministic emptyDb rfl).1,
   (getUserContext_default_deterministic emptyDb rfl).2 emptyDbWithTx rfl⟩

/-- C10: every `updateUserContext` call writes the full merged context back
through `saveUserContext`, whose upsert unconditionally sets
`onboarding_complete: true` — so the user counts as onboarded afterwards,
whatever the field, action and value were. -/
theorem updateUserContext_always_saves (db : UserDb) (p : UpdateContextParams) :
    updateUserContext db p = saveUserContext db (applyContextUpdate (getUserContext db) p) ∧
    (updateUserContext db p).user_context =
      some { context := applyContextUpdate (getUserContext db) p, onboarding_complete := true } ∧
    isOnboarded (updateUserContext db p) = true :=
  ⟨rfl, rfl, rfl⟩

/-- C2 counterexample: the `transition_phase` handler performs no ordering
check.  A session persisted at `synthesis` that receives a transition
request back to `household` ends the turn persisted at `household` (a
strictly earlier phase, not unchanged); a session persisted at `complete` —
still reachable because the user is not yet marked onboarded — likewise
leaves `complete` for `household`. -/
theorem transition_phase_no_validation_counterexample :
    ((runOnboardingAgent dbAtSynthesis backToHouseholdScript).2.onboarding_state =
      some { phase := "household", gathered_context := [], questions_asked := [] }) ∧
    ((runOnboardingAgent dbAtComplete backToHouseholdScript).2.onboarding_state =
      some { phase := "household", gathered_context := [], questions_asked := [] }) ∧
    routeDecision dbAtComplete "hello" = .onboarding ∧
    ("household" : String) ≠ "synthesis" ∧ ("household" : String) ≠ "complete" :=
  ⟨rfl, rfl, rfl, by decide, by decide⟩

/-- C2 amended: the `transition_phase` input schema's `enum` restricts
`next_phase` to the eight phases after `intro`, but the handler validates
nothing itself: it sets the in-memory phase to exactly the requested
`next_phase` — whether forward, backward, equal, or leaving `complete` —
and persists that state immediately via `saveOnboardingState`. -/
theorem transition_phase_applies_requested (st : OnbLoopState)
    (s : OnboardingStateRow) (inp : TransitionInput) :
    ((applyTransitionPhase s inp).phase = inp.next_phase) ∧
    ((execOnbToolCall st (.transitionPhase inp)).phase = inp.next_phase) ∧
    ((execOnbToolCall st (.transitionPhase inp)).db.onboarding_state =
      some (applyTransitionPhase
        { phase := st.phase, gathered_context := st.gathered,
          questions_asked := st.questions } inp)) ∧
    ("intro" ∉ transitionPhaseEnum) :=
  ⟨rfl, rfl, rfl, by decide⟩

/-- C1: whenever the user is not marked onboarded or an onboarding-state
row exists at a phase other than `complete`, `orchestrate` dispatches to
the onboarding agent whatever the message says; and when that turn reports
complete with a finalized context, the context is persisted through
`saveUserContext` (the row gets the context with the completion marker set)
and the caller sees `contextUpdated = true`. -/
theorem orchestrate_onboarding_gate (db : UserDb) (msg : String) (script : OnbScript)
    (insightCall : Except String (Option String)) (chatCall : Except String String)
    (h : isOnboarded db = false ∨ hasActiveOnboarding db = true) :
    ∃ r db', orchestrate db msg script insightCall chatCall = .ok (r, db') ∧
      r.route = .onboarding ∧
      r.response = (runOnboardingAgent db script).1.response ∧
      (∀ ctx : UserContext, (runOnboardingAgent db script).1.complete = true →
        (runOnboardingAgent db script).1.context = some ctx →
        r.contextUpdated = some true ∧
        db' = saveUserContext (runOnboardingAgent db script).2 ctx ∧
        db'.user_context = some { context := ctx, onboarding_complete := true }) := by
  have hc : (!isOnboarded db || hasActiveOnboarding db) = true := by
    rcases h with h | h <;> simp [h]
  rcases hr : runOnboardingAgent db script with ⟨result, db1⟩
  unfold orchestrate
  rw [if_pos hc, hr]
  dsimp only
  cases hcomp : result.complete with
  | false =>
    rw [if_neg (by simp [hcomp])]
    exact ⟨_, _, rfl, rfl, rfl, fun ctx h1 _ => absurd h1 (by simp [hcomp])⟩
  | true =>
    rw [if_pos rfl]
    cases hctx : result.context with
    | none =>
      exact ⟨_, _, rfl, rfl, rfl, fun ctx _ h2 => Option.noConfusion h2⟩
    | some c =>
      refine ⟨_, _, rfl, rfl, rfl, fun ctx _ h2 => ?_⟩
      have hcc : c = ctx := Option.some_inj.mp h2
      subst hcc
      exact ⟨rfl, rfl, rfl⟩

/-- Witness for the onboarding gate: a brand-new user (no context row, no
onboarding row) whose first turn immediately finalizes. -/
theorem orchestrate_onboarding_gate_witness :
    (orchestrate emptyDb "hi there" finalizeScript (.ok none) (.ok "chat")).map
      (fun p => (p.1.route, p.1.contextUpdated)) = .ok (Route.onboarding, some true) := by
  obtain ⟨r, db1, heq, hroute, -, himp⟩ :=
    orchestrate_onboarding_gate emptyDb "hi there" finalizeScript (.ok none) (.ok "chat")
      (Or.inl rfl)
  obtain ⟨hcu, -, -⟩ := himp DEFAULT_USER_CONTEXT rfl rfl
  rw [heq]
  simp only [Except.map]
  rw [hroute, hcu]

theorem classifyIntent_ne_onboarding (msg : String) : classifyIntent msg ≠ .onboarding := by
  unfold classifyIntent
  dsimp only
  split <;> decide

/-- C4: for an onboarded user with no active onboarding session, the route
is a pure function of the message alone — insight exactly when the
lowercased message contains one of the fixed keywords as a substring,
otherwise chat — and `orchestrate` dispatches to precisely that agent; the
decision itself consults no oracle. -/
theorem orchestrate_intent_routing (db : UserDb) (msg : String) (script : OnbScript)
    (insightCall : Except String (Option String)) (chatCall : Except String String)
    (h1 : isOnboarded db = true) (h2 : hasActiveOnboarding db = false) :
    routeDecision db msg = classifyIntent msg ∧
    (routeDecision db msg =
      (if insightKeywords.any (fun k => jsIncludes (jsToLower msg) k) then Route.insight
       else Route.chat)) ∧
    (routeDecision db msg = .insight ↔
      insightKeywords.any (fun k => jsIncludes (jsToLower msg) k) = true) ∧
    (∀ r db', orchestrate db msg script insightCall chatCall = .ok (r, db') →
      r.route = routeDecision db msg) := by
  have hc : (!isOnboarded db || hasActiveOnboarding db) = false := by
    simp [h1, h2]
  have hroute : routeDecision db msg = classifyIntent msg := by
    unfold routeDecision
    rw [hc, if_neg (by simp)]
  refine ⟨hroute, ?_, ?_, ?_⟩
  · rw [hroute]; rfl
  · rw [hroute]
    unfold classifyIntent
    by_cases hk : insightKeywords.any (fun k => jsIncludes (jsToLower msg) k) = true
    · simp [hk]
    · simp only [Bool.not_eq_true] at hk
      simp [hk]
  · intro r db' hok
    unfold orchestrate at hok
    rw [if_neg (by simp [hc] : ¬(!isOnboarded db || hasActiveOnboarding db) = true)] at hok
    rw [hroute]
    cases hcl : classifyIntent msg with
    | onboarding => exact absurd hcl (classifyIntent_ne_onboarding msg)
    | chat =>
      rw [hcl] at hok
      dsimp only at hok
      cases chatCall with
      | error e => exact Except.noConfusion hok
      | ok s =>
        injection hok with hpair
        injection hpair with ha _
        rw [← ha]
    | insight =>
      rw [hcl] at hok
      dsimp only at hok
      cases insightCall with
      | error e =>
        rw [show runInsightAgent db (.error e) = (.error e, db) from rfl] at hok
        exact Except.noConfusion hok
      | ok t =>
        rw [show runInsightAgent db (.ok t) =
          (.ok (t.getD ""),
           { db with insights := db.insights ++
              [{ content := t.getD "",
                 priority := determineInsightPriority (t.getD "") }] }) from rfl] at hok
        injection hok with hpair
        injection hpair with ha _
        rw [← ha]

/-- Witness for intent routing: an onboarded user asking for a summary is
routed to the insight agent. -/
theorem orchestrate_intent_routing_witness :
    routeDecision onboardedDb "Give me a SUMMARY please"
      = classifyIntent "Give me a SUMMARY please" ∧
    routeDecision onboardedDb "Give me a SUMMARY please" = .insight ∧
    OrchestrationResult.route
        { route := .insight, response := "insight text", contextUpdated := none }
      = routeDecision onboardedDb "Give me a SUMMARY please" := by
  have h := orchestrate_intent_routing onboardedDb "Give me a SUMMARY please" finalizeScript
    (.ok (some "insight text")) (.ok "chat text") rfl rfl
  refine ⟨h.1, ?_, ?_⟩
  · rw [h.2.1]
    rfl
  · exact h.2.2.2
      { route := .insight, response := "insight text", contextUpdated := none }
      { onboardedDb with insights := onboardedDb.insights ++
          [{ content := "insight text",
             priority := determineInsightPriority "insight text" }] }
      rfl

theorem determineInsightPriority_mem (t : String) :
    determineInsightPriority t ∈ insightPriorities := by
  unfold determineInsightPriority
  dsimp only
  split
  · decide
  · split
    · decide
    · split
      · decide
      · split
        · decide
        · decide

/-- C5: the insight agent.  A provider error propagates as the rejection of
the call and leaves the insight store untouched; a successful call stores
exactly one insight whose priority is the ordered-keyword classification of
the returned text — a value of the fixed five-value enum — where the alert
bucket wins whenever one of its keywords occurs, and a text matching no
keyword of any bucket is classified `observation`. -/
theorem runInsightAgent_single_insight (db : UserDb) (e : String) (t : Option String) :
    (runInsightAgent db (.error e) = (.error e, db)) ∧
    ((runInsightAgent db (.error e)).2.insights = db.insights) ∧
    (runInsightAgent db (.ok t) =
      (.ok (t.getD ""),
       { db with insights := db.insights ++
          [{ content := t.getD "", priority := determineInsightPriority (t.getD "") }] })) ∧
    ((runInsightAgent db (.ok t)).2.insights.length = db.insights.length + 1) ∧
    (determineInsightPriority (t.getD "") ∈ insightPriorities) ∧
    (∀ txt : String,
      alertKeywords.any (fun k => jsIncludes (jsToLower txt) k) = true →
      determineInsightPriority txt = "alert") ∧
    (∀ txt : String,
      (alertKeywords ++ warningKeywords ++ watchKeywords ++ affirmationKeywords).all
        (fun k => !(jsIncludes (jsToLower txt) k)) = true →
      determineInsightPriority txt = "observation") := by
  refine ⟨rfl, rfl, rfl, by simp [runInsightAgent], determineInsightPriority_mem _, ?_, ?_⟩
  · intro txt h
    unfold determineInsightPriority
    dsimp only
    rw [if_pos h]
  · intro txt h
    simp only [List.all_append, Bool.and_eq_true, List.all_eq_true] at h
    obtain ⟨⟨⟨h1, h2⟩, h3⟩, h4⟩ := h
    have none_of : ∀ (ks : List String), (∀ k ∈ ks, (!jsIncludes (jsToLower txt) k) = true) →
        (ks.any (fun k => jsIncludes (jsToLower txt) k)) = false := by
      intro ks hks
      rw [List.any_eq_false]
      intro k hk
      simpa using hks k hk
    unfold determineInsightPriority
    dsimp only
    rw [if_neg (by simp [none_of _ h1]), if_neg (by simp [none_of _ h2]),
      if_neg (by simp [none_of _ h3]), if_neg (by simp [none_of _ h4])]

/-- Witness for the insight-agent theorem: a failing model call rejects
without touching the store; an alert keyword wins; a keyword-free text
defaults to `observation`. -/
theorem runInsightAgent_single_insight_witness :
    (runInsightAgent emptyDb (.error "provider down") = (.error "provider down", emptyDb)) ∧
    determineInsightPriority "Groceries exceeded the usual level" = "alert" ∧
    determineInsightPriority "Spending was a bit higher this fortnight" = "observation" :=
  ⟨(runInsightAgent_single_insight emptyDb "provider down" (some "x")).1,
   (runInsightAgent_single_insight emptyDb "provider down" (some "x")).2.2.2.2.2.1
     "Groceries exceeded the usual level" (by decide),
   (runInsightAgent_single_insight emptyDb "provider down" (some "x")).2.2.2.2.2.2
     "Spending was a bit higher this fortnight" (by decide)⟩

/-- C6: `getSpendingSummary` aggregates exactly the positive-amount rows in
the date range (income rows never contribute), its breakdown is sorted
descending by total with each entry carrying its rounded percentage of the
grand total, and on the spec's example it reports total `80` with breakdown
`[{name: "Groceries", total: 80, count: 2, percentage: 100}]`.  (No
classification filter exists in this function; the spec's
"where applicable" clause applies to the monthly-summary tool, not here.) -/
theorem getSpendingSummary_spec (db : UserDb) (startDate endDate : Nat) (g : GroupBy) :
    ((getSpendingSummary db startDate endDate g).total =
      round2 ((spendingRows db startDate endDate).foldl (fun acc t => acc + t.amount) 0)) ∧
    ((spendingRows db startDate endDate).all (fun t =>
      decide (0 < t.amount) && decide (startDate ≤ t.date) && decide (t.date ≤ endDate)) = true) ∧
    List.Sorted breakdownGE (getSpendingSummary db startDate endDate g).breakdown ∧
    (getSpendingSummary exampleSpendingDb 0 10 .category =
      { total := 80,
        breakdown := [{ name := "Groceries", total := 80, count := 2, percentage := 100 }] }) := by
  refine ⟨rfl, ?_, ?_, by with_unfolding_all rfl⟩
  · rw [List.all_eq_true]
    intro t ht
    rw [spendingRows, List.mem_filter] at ht
    obtain ⟨-, h⟩ := ht
    simp only [Bool.and_eq_true, decide_eq_true_eq] at h ⊢
    exact ⟨⟨h.2, h.1.1⟩, h.1.2⟩
  · exact List.sorted_insertionSort breakdownGE _

/-! Lemmas for the recent-activity average. -/

theorem daily_fold_filter (ts : List Transaction) (m : List (Nat × Rat)) :
    ts.foldl (fun m t => if 0 < t.amount then addToDaily m t.date t.amount else m) m =
    (ts.filter (fun t => decide (0 < t.amount))).foldl
      (fun m t => addToDaily m t.date t.amount) m := by
  induction ts generalizing m with
  | nil => rfl
  | cons t ts ih =>
    by_cases h : 0 < t.amount
    · simp only [List.foldl_cons, List.filter_cons, decide_eq_true h, if_pos h]
      exact ih _
    · simp only [List.foldl_cons, List.filter_cons, decide_eq_false h, if_neg h]
      exact ih _

theorem total_fold_filter (ts : List Transaction) (acc : Rat) :
    ts.foldl (fun acc t => if 0 < t.amount then acc + t.amount else acc) acc =
    (ts.filter (fun t => decide (0 < t.amount))).foldl (fun acc t => acc + t.amount) acc := by
  induction ts generalizing acc with
  | nil => rfl
  | cons t ts ih =>
    by_cases h : 0 < t.amount
    · simp only [List.foldl_cons, List.filter_cons, decide_eq_true h, if_pos h]
      exact ih _
    · simp only [List.foldl_cons, List.filter_cons, decide_eq_false h, if_neg h]
      exact ih _

theorem foldl_add_amount_sum (ts : List Transaction) (acc : Rat) :
    ts.foldl (fun acc t => acc + t.amount) acc = acc + (ts.map (fun t => t.amount)).sum := by
  induction ts generalizing acc with
  | nil => simp
  | cons t ts ih => simp [ih, add_assoc]

theorem addToDaily_keys (m : List (Nat × Rat)) (d : Nat) (v : Rat) :
    (addToDaily m d v).map Prod.fst =
      if m.any (fun e => e.1 == d) then m.map Prod.fst else m.map Prod.fst ++ [d] := by
  unfold addToDaily
  by_cases h : m.any (fun e => e.1 == d)
  · rw [if_pos h, if_pos h, List.map_map]
    apply List.map_congr_left
    intro e _
    show (if (e.1 == d) = true then (e.1, e.2 + v) else e).1 = e.1
    split <;> rfl
  · rw [if_neg h, if_neg h, List.map_append]
    rfl

theorem daily_fold_keys_mem (ts : List Transaction) (m : List (Nat × Rat)) (x : Nat) :
    (x ∈ (ts.foldl (fun m t => addToDaily m t.date t.amount) m).map Prod.fst) ↔
      (x ∈ m.map Prod.fst ∨ x ∈ ts.map (fun t => t.date)) := by
  induction ts generalizing m with
  | nil => simp
  | cons t ts ih =>
    rw [List.foldl_cons, ih, List.map_cons, addToDaily_keys]
    by_cases h : m.any (fun e => e.1 == t.date)
    · rw [if_pos h]
      have hd : t.date ∈ m.map Prod.fst := by
        rw [List.any_eq_true] at h
        obtain ⟨e, he, heq⟩ := h
        exact List.mem_map.2 ⟨e, he, by simpa using heq⟩
      simp only [List.mem_cons]
      constructor
      · rintro (h1 | h2)
        · exact Or.inl h1
        · exact Or.inr (Or.inr h2)
      · rintro (h1 | h2 | h3)
        · exact Or.inl h1
        · exact Or.inl (h2 ▸ hd)
        · exact Or.inr h3
    · rw [if_neg h]
      simp only [List.mem_append, List.mem_singleton, List.mem_cons]
      tauto

theorem daily_fold_keys_nodup (ts : List Transaction) (m : List (Nat × Rat))
    (hm : (m.map Prod.fst).Nodup) :
    ((ts.foldl (fun m t => addToDaily m t.date t.amount) m).map Prod.fst).Nodup := by
  induction ts generalizing m with
  | nil => exact hm
  | cons t ts ih =>
    rw [List.foldl_cons]
    apply ih
    rw [addToDaily_keys]
    by_cases h : m.any (fun e => e.1 == t.date)
    · rw [if_pos h]; exact hm
    · rw [if_neg h]
      have hd : t.date ∉ m.map Prod.fst := by
        intro hmem
        apply h
        rw [List.any_eq_true]
        obtain ⟨e, he, heq⟩ := List.mem_map.1 hmem
        exact ⟨e, he, by simp [heq]⟩
      simp [List.nodup_append, hm, hd]

/-- C7: `getRecentActivity` divides by the number of distinct days that
actually carry spending, not by the window length: whenever the
positive-amount rows in the window fall on exactly two distinct days and
sum to 100, the reported average daily spend is 50, for any requested
`days`. -/
theorem getRecentActivity_avg_daily (db : UserDb) (today days : Nat)
    (h2days : (((recentRows db today days).filter (fun t => decide (0 < t.amount))).map
        (fun t => t.date)).toFinset.card = 2)
    (h100 : (((recentRows db today days).filter (fun t => decide (0 < t.amount))).map
        (fun t => t.amount)).sum = 100) :
    (getRecentActivity db today days).avg_daily = 50 := by
  have hlen : ((recentRows db today days).foldl
      (fun m t => if 0 < t.amount then addToDaily m t.date t.amount else m) []).length = 2 := by
    rw [daily_fold_filter]
    set F := (recentRows db today days).filter (fun t => decide (0 < t.amount)) with hF
    have hkeysnodup : ((F.foldl (fun m t => addToDaily m t.date t.amount) []).map Prod.fst).Nodup :=
      daily_fold_keys_nodup F [] (by simp)
    have hkeysfinset :
        ((F.foldl (fun m t => addToDaily m t.date t.amount) []).map Prod.fst).toFinset =
          (F.map (fun t => t.date)).toFinset := by
      apply Finset.ext
      intro x
      rw [List.mem_toFinset, List.mem_toFinset, daily_fold_keys_mem]
      simp
    have := List.toFinset_card_of_nodup hkeysnodup
    rw [hkeysfinset, h2days] at this
    rw [← List.length_map (F.foldl (fun m t => addToDaily m t.date t.amount) []) Prod.fst]
    exact this.symm
  have htot : (recentRows db today days).foldl
      (fun acc t => if 0 < t.amount then acc + t.amount else acc) (0 : Rat) = 100 := by
    rw [total_fold_filter, foldl_add_amount_sum, h100, zero_add]
  unfold getRecentActivity
  dsimp only
  rw [hlen, htot]
  rw [if_pos (by decide : (0 : Nat) < 2)]
  with_unfolding_all rfl

/-- Witness: $100 over two spending days yields an average of 50 whether
the requested window is 30 days or 7 days. -/
theorem getRecentActivity_avg_daily_witness :
    (getRecentActivity recentExampleDb 30 30).avg_daily = 50 ∧
    (getRecentActivity recentExampleDb 30 7).avg_daily = 50 :=
  ⟨getRecentActivity_avg_daily recentExampleDb 30 30 (by with_unfolding_all rfl)
      (by with_unfolding_all rfl),
   getRecentActivity_avg_daily recentExampleDb 30 7 (by with_unfolding_all rfl)
      (by with_unfolding_all rfl)⟩

end Swearjar
